import Mathlib

/-!
Shallow embedding of the visibility log-parsing and windowing engine of
`src/app.py` (Delhi Fog Live Tracker).

The engine, in `load_data_safe` and `main`:
  * parses row timestamps, localizes naive ones to UTC and converts all of
    them to Asia/Kolkata (IST, UTC+5:30);
  * extracts a general-visibility series (rows containing `GEN. VIS.`,
    value via regex `GEN\. VIS\.\s+:(\d+)`) and a runway series (rows
    containing `RVR`, runway id and value via `RVR\s+([\w\d]+)\s+:(\d+)`);
  * drops rows whose extracted value is outside [0, 5000] or whose
    extraction failed (NaN comparisons are false, then `.dropna()`);
  * windows both series by `Timestamp >= latest - lookback` where `latest`
    is the maximum timestamp of the general series and lookback is one of
    6 h / 24 h / 7 days;
  * reports the last general value, the minimum windowed runway value, the
    truncated mean of the windowed general values, and a fog category.

Timestamps are modelled as wall-clock minutes plus an optional UTC offset
in minutes (none = naive).  Character classes model Python's `re` ASCII
behaviour on the log alphabet; `.` in a pattern matches anything except a
newline (pandas `str.contains` treats its argument as a regex).
-/

namespace FogTracker

/-! ## Character classes (Python `re` semantics on the ASCII log alphabet) -/

/-- `\d` : decimal digit. -/
def isDigitChar (c : Char) : Bool := '0' ≤ c && c ≤ '9'

/-- `\s` : Python whitespace class. -/
def isSpaceChar (c : Char) : Bool :=
  c = ' ' || c = '\t' || c = '\n' || c = '\x0d' || c = '\x0b' || c = '\x0c'

/-- `\w` (so also `[\w\d]`) : letter, digit or underscore. -/
def isWordChar (c : Char) : Bool := c.isAlphanum || c = '_'

/-- `.` in a regex: any character except a newline. -/
def isDotChar (c : Char) : Bool := c ≠ '\n'

/-- Match a literal character list as a prefix, returning the rest. -/
def matchLit : List Char → List Char → Option (List Char)
  | [], s => some s
  | _ :: _, [] => none
  | l :: ls, c :: cs => if c = l then matchLit ls cs else none

/-- Maximal run of characters satisfying `p` (greedy `X+`/`X*`): the run
and the rest. -/
def takeRun (p : Char → Bool) : List Char → List Char × List Char
  | [] => ([], [])
  | c :: cs =>
    if p c then
      let r := takeRun p cs
      (c :: r.1, r.2)
    else ([], c :: cs)

/-- Base-10 value of a digit run (`pd.to_numeric` on a `(\d+)` capture). -/
def digitsToNat (ds : List Char) : Nat :=
  ds.foldl (fun a c => 10 * a + (c.toNat - '0'.toNat)) 0

/-! ## Row classification and extraction -/

/-- Does the regex `GEN. VIS.` (dots are wildcards: pandas
`str.contains('GEN. VIS.')` is a regex search) match at the head? -/
def genMarkAt : List Char → Bool
  | 'G' :: 'E' :: 'N' :: a :: ' ' :: 'V' :: 'I' :: 'S' :: b :: _ =>
    isDotChar a && isDotChar b
  | _ => false

/-- `df_raw['Data_Row'].str.contains('GEN. VIS.')` : regex search anywhere. -/
def genContains : List Char → Bool
  | [] => false
  | c :: cs => genMarkAt (c :: cs) || genContains cs

/-- Match `GEN\. VIS\.\s+:(\d+)` at the head; returns the captured value.
The character classes `\s`, `:` and `\d` are pairwise disjoint here, so
greedy matching without backtracking is exact. -/
def genvisAt (s : List Char) : Option Nat :=
  match matchLit "GEN. VIS.".toList s with
  | none => none
  | some r1 =>
    let sp := takeRun isSpaceChar r1
    if sp.1 = [] then none
    else
      match sp.2 with
      | ':' :: r3 =>
        let ds := takeRun isDigitChar r3
        if ds.1 = [] then none else some (digitsToNat ds.1)
      | _ => none

/-- `str.extract(r'GEN\. VIS\.\s+:(\d+)')` : leftmost match wins. -/
def searchGen : List Char → Option Nat
  | [] => none
  | c :: cs =>
    match genvisAt (c :: cs) with
    | some v => some v
    | none => searchGen cs

/-- Does the literal `RVR` occur at the head? -/
def rvrMarkAt : List Char → Bool
  | 'R' :: 'V' :: 'R' :: _ => true
  | _ => false

/-- `df_raw['Data_Row'].str.contains('RVR')` : substring search. -/
def rvrContains : List Char → Bool
  | [] => false
  | c :: cs => rvrMarkAt (c :: cs) || rvrContains cs

/-- Match `RVR\s+([\w\d]+)\s+:(\d+)` at the head; returns the runway
token and the value.  Again every adjacent pair of classes is disjoint,
so greedy matching is exact. -/
def rvrAtExtract (s : List Char) : Option (List Char × Nat) :=
  match matchLit "RVR".toList s with
  | none => none
  | some r1 =>
    let sp1 := takeRun isSpaceChar r1
    if sp1.1 = [] then none
    else
      let tok := takeRun isWordChar sp1.2
      if tok.1 = [] then none
      else
        let sp2 := takeRun isSpaceChar tok.2
        if sp2.1 = [] then none
        else
          match sp2.2 with
          | ':' :: r5 =>
            let ds := takeRun isDigitChar r5
            if ds.1 = [] then none else some (tok.1, digitsToNat ds.1)
          | _ => none

/-- `str.extract(r'RVR\s+([\w\d]+)\s+:(\d+)')` : leftmost match wins. -/
def searchRvr : List Char → Option (List Char × Nat)
  | [] => none
  | c :: cs =>
    match rvrAtExtract (c :: cs) with
    | some x => some x
    | none => searchRvr cs

/-! ## Timestamps (lines 136-139 of `src/app.py`) -/

/-- A parsed timestamp: wall-clock minutes plus an optional UTC offset in
minutes (`none` = naive, as pandas reports `dt.tz is None`). -/
structure Timestamp where
  naive : Int
  offset : Option Int
deriving DecidableEq, Repr

/-- Asia/Kolkata is a fixed UTC+5:30 offset: 330 minutes. -/
def istOffset : Int := 330

/-- The absolute instant a timestamp denotes (a naive timestamp is read
as UTC, which is exactly the code's assumption). -/
def Timestamp.instant (t : Timestamp) : Int :=
  match t.offset with
  | none => t.naive
  | some o => t.naive - o

/-- `dt.tz_localize('UTC')` : attach UTC to a naive timestamp; pandas
raises on an already-aware input. -/
def tzLocalizeUTC (t : Timestamp) : Option Timestamp :=
  match t.offset with
  | none => some ⟨t.naive, some 0⟩
  | some _ => none

/-- `dt.tz_convert('Asia/Kolkata')` : re-express an aware timestamp in
IST, keeping the instant; pandas raises on a naive input. -/
def tzConvertIST (t : Timestamp) : Option Timestamp :=
  match t.offset with
  | none => none
  | some o => some ⟨t.naive - o + istOffset, some istOffset⟩

/-- Lines 136-139: localize to UTC when naive, then convert to IST.  The
`if` guard makes both partial pandas operations total here. -/
def normalizeTs (t : Timestamp) : Timestamp :=
  match t.offset with
  | none => ⟨t.naive + istOffset, some istOffset⟩
  | some o => ⟨t.naive - o + istOffset, some istOffset⟩

/-! ## Rows, readings and the cleaning pipeline (`load_data_safe`) -/

/-- One CSV row: a parsed `Timestamp` and the free-text `Data_Row`. -/
structure RawRow where
  ts : Timestamp
  payload : String
deriving DecidableEq, Repr

/-- A cleaned general-visibility reading. -/
structure GenReading where
  ts : Timestamp
  vis : Nat
deriving DecidableEq, Repr

/-- A cleaned runway-visual-range reading. -/
structure RvrReading where
  ts : Timestamp
  runway : String
  vis : Nat
deriving DecidableEq, Repr

/-- `df_gen`: keep rows whose payload matches the `GEN. VIS.` regex,
extract the value, then keep only values in `[0, 5000]` (a failed
extraction is NaN: both comparisons are false and `.dropna()` would drop
it anyway). -/
def cleanGen (rows : List RawRow) : List GenReading :=
  rows.filterMap fun r =>
    if genContains r.payload.toList then
      match searchGen r.payload.toList with
      | some v => if 0 ≤ v ∧ v ≤ 5000 then some ⟨normalizeTs r.ts, v⟩ else none
      | none => none
    else none

/-- `df_rvr`: same pipeline with the `RVR` marker and two-group regex. -/
def cleanRvr (rows : List RawRow) : List RvrReading :=
  rows.filterMap fun r =>
    if rvrContains r.payload.toList then
      match searchRvr r.payload.toList with
      | some x =>
        if 0 ≤ x.2 ∧ x.2 ≤ 5000 then some ⟨normalizeTs r.ts, ⟨x.1⟩, x.2⟩ else none
      | none => none
    else none

/-! ## Windowing and summary metrics (`main`, lines 199-233) -/

/-- `df_gen['Timestamp'].max()` : `none` on an empty series (pandas NaT,
on which the subsequent `strftime` raises). -/
def maxInstant : List GenReading → Option Int
  | [] => none
  | g :: gs => some ((gs.map fun x => x.ts.instant).foldl max g.ts.instant)

/-- The lookback choices offered by the `History Depth` selector. -/
inductive Lookback | h6 | h24 | d7
deriving DecidableEq, Repr

/-- `hours_map` converted to minutes: 6 h, 24 h, 7 days = 168 h. -/
def lookbackMinutes : Lookback → Int
  | .h6 => 6 * 60
  | .h24 => 24 * 60
  | .d7 => 168 * 60

/-- `f_gen = df_gen[df_gen['Timestamp'] >= cutoff]`. -/
def windowGen (gen : List GenReading) (cutoff : Int) : List GenReading :=
  gen.filter fun g => cutoff ≤ g.ts.instant

/-- `f_rvr = df_rvr[df_rvr['Timestamp'] >= cutoff]`. -/
def windowRvr (rvr : List RvrReading) (cutoff : Int) : List RvrReading :=
  rvr.filter fun r => cutoff ≤ r.ts.instant

/-- `int(f_gen.iloc[-1]['vis']) if not f_gen.empty else 0`. -/
def currVis (w : List GenReading) : Nat :=
  match w.getLast? with
  | some g => g.vis
  | none => 0

/-- `f_rvr['vis'].min()` (callers guard the empty case with 0). -/
def minRvr : List RvrReading → Nat
  | [] => 0
  | r :: rs => (rs.map RvrReading.vis).foldl min r.vis

/-- `f_gen['vis'].mean()` as an exact rational. -/
def meanVis (w : List GenReading) : ℚ :=
  ((w.map fun g => (g.vis : ℚ)).sum) / (w.length : ℚ)

/-- Python `int(...)` on a real value: truncation toward zero. -/
def pyInt (q : ℚ) : Int := if 0 ≤ q then ⌊q⌋ else ⌈q⌉

/-- `int(f_gen['vis'].mean()) if not f_gen.empty else 0`. -/
def avgVis (w : List GenReading) : Int :=
  if w.isEmpty then 0 else pyInt (meanVis w)

/-- The fog severity buckets. -/
inductive FogCat | Dense | Moderate | Shallow | Clear
deriving DecidableEq, Repr

/-- Lines 215-220: chained conditional on `curr_vis`. -/
def fogType (v : Nat) : FogCat :=
  if v ≤ 50 then .Dense
  else if v ≤ 200 then .Moderate
  else if v ≤ 500 then .Shallow
  else .Clear

/-- The four reported metrics. -/
structure WindowSummary where
  currVis : Nat
  minRvr : Nat
  avgVis : Int
  fog : FogCat
deriving DecidableEq, Repr

/-- The two fatal failures of an invocation: the CSV cannot be read at
all, or the cleaned general series is empty (NaT `latest_time`, whose
`strftime` raises before any window is computed). -/
inductive MainError | sourceUnavailable | emptySeries
deriving DecidableEq, Repr

/-- Lines 205-233: cutoff, the two windows, and the four metrics. -/
def computeSummary (gen : List GenReading) (rvr : List RvrReading)
    (latest : Int) (lb : Lookback) : WindowSummary :=
  let cutoff := latest - lookbackMinutes lb
  let fg := windowGen gen cutoff
  let fr := windowRvr rvr cutoff
  { currVis := currVis fg
    minRvr := minRvr fr
    avgVis := avgVis fg
    fog := fogType (currVis fg) }

/-- One invocation of `main`: fetch (`none` = the read itself failed),
clean, take the latest general timestamp, window and summarize.  All
row-level malformation is absorbed inside `cleanGen`/`cleanRvr`. -/
def runMain (src : Option (List RawRow)) (lb : Lookback) :
    Except MainError WindowSummary :=
  match src with
  | none => .error .sourceUnavailable
  | some rows =>
    match maxInstant (cleanGen rows) with
    | none => .error .emptySeries
    | some latest => .ok (computeSummary (cleanGen rows) (cleanRvr rows) latest lb)

/-- The spec's words for the critical runway RVR (for comparison with the
code's `minRvr` over the whole window): minimum only among windowed runway
readings at the single latest runway timestamp, 0 when empty. -/
def minRvrLatestOnly (w : List RvrReading) : Nat :=
  match w with
  | [] => 0
  | r :: rs =>
    let m := (rs.map fun x => x.ts.instant).foldl max r.ts.instant
    minRvr ((r :: rs).filter fun x => x.ts.instant = m)

/-! ## Concrete example data -/

/-- One general row and one runway row, both well formed. -/
def rowsBasic : List RawRow :=
  [⟨⟨0, none⟩, "GEN. VIS. :0350"⟩, ⟨⟨5, none⟩, "DATA RVR 28 :0075 MSG"⟩]

/-- A general reading at instant 60 and runway readings at instants 0 and
60: the oldest runway reading has the smallest value. -/
def rowsTwoRvr : List RawRow :=
  [⟨⟨60, none⟩, "GEN. VIS. :0350"⟩, ⟨⟨0, none⟩, "RVR 28 :0100"⟩,
   ⟨⟨60, none⟩, "RVR 27 :0200"⟩]

/-- A runway reading 100 minutes later than the only general reading. -/
def rowsLateRvr : List RawRow :=
  [⟨⟨0, none⟩, "GEN. VIS. :0350"⟩, ⟨⟨100, none⟩, "RVR 28 :0075"⟩]

/-- A well-formed general row followed by one whose value is not numeric. -/
def rowsWithAbc : List RawRow :=
  [⟨⟨0, none⟩, "GEN. VIS. :0350"⟩, ⟨⟨5, none⟩, "GEN. VIS. :abc"⟩]

/-- Runway data only: the cleaned general series comes out empty. -/
def rowsRvrOnly : List RawRow :=
  [⟨⟨0, none⟩, "RVR 28 :0075"⟩]

/-- Two cleaned general readings whose mean 3/2 is not an integer. -/
def genPair : List GenReading :=
  [⟨⟨330, some 330⟩, 1⟩, ⟨⟨331, some 330⟩, 2⟩]

/-! ## Helper lemmas -/

lemma le_foldl_max (l : List Int) : ∀ a : Int, a ≤ l.foldl max a := by
  induction l with
  | nil => intro a; simp
  | cons b l ih =>
    intro a
    rw [List.foldl_cons]
    exact le_trans (le_max_left a b) (ih (max a b))

lemma mem_le_foldl_max (x : Int) :
    ∀ l : List Int, x ∈ l → ∀ a : Int, x ≤ l.foldl max a := by
  intro l
  induction l with
  | nil => intro h; cases h
  | cons b l ih =>
    intro hx a
    rw [List.foldl_cons]
    rcases List.mem_cons.mp hx with h | h
    · subst h
      exact le_trans (le_max_right a x) (le_foldl_max l (max a x))
    · exact ih h (max a b)

lemma foldl_min_le_start (l : List Nat) : ∀ a : Nat, l.foldl min a ≤ a := by
  induction l with
  | nil => intro a; simp
  | cons b l ih =>
    intro a
    rw [List.foldl_cons]
    exact le_trans (ih (min a b)) (min_le_left a b)

lemma foldl_min_le_mem (x : Nat) :
    ∀ l : List Nat, x ∈ l → ∀ a : Nat, l.foldl min a ≤ x := by
  intro l
  induction l with
  | nil => intro h; cases h
  | cons b l ih =>
    intro hx a
    rw [List.foldl_cons]
    rcases List.mem_cons.mp hx with h | h
    · subst h
      exact le_trans (foldl_min_le_start l (min a x)) (min_le_right a x)
    · exact ih h (min a b)

lemma foldl_min_mem (l : List Nat) : ∀ a : Nat, l.foldl min a = a ∨ l.foldl min a ∈ l := by
  induction l with
  | nil => intro a; left; rfl
  | cons b l ih =>
    intro a
    rw [List.foldl_cons]
    rcases ih (min a b) with h | h
    · rcases min_choice a b with hm | hm
      · left; rw [h, hm]
      · right; rw [h, hm]; exact List.mem_cons_self b l
    · right; exact List.mem_cons_of_mem b h

/-- Every member of the cleaned general series comes from a raw row that
contained the marker, extracted to exactly that value, passed the range
filter, and carries that row's normalized timestamp. -/
lemma mem_cleanGen {rows : List RawRow} {g : GenReading} (h : g ∈ cleanGen rows) :
    ∃ r ∈ rows, genContains r.payload.toList = true ∧
      searchGen r.payload.toList = some g.vis ∧
      g.vis ≤ 5000 ∧ g.ts = normalizeTs r.ts := by
  rw [cleanGen, List.mem_filterMap] at h
  obtain ⟨r, hr, he⟩ := h
  refine ⟨r, hr, ?_⟩
  split at he
  case isTrue hc =>
    split at he
    next v hs =>
      split at he
      next hv => cases he; exact ⟨hc, hs, hv.2, rfl⟩
      next hv => exact Option.noConfusion he
    next hs => exact Option.noConfusion he
  case isFalse hc => exact Option.noConfusion he

/-- Every member of the cleaned runway series comes from a raw row that
contained the marker, extracted to exactly that runway token and value,
passed the range filter, and carries that row's normalized timestamp. -/
lemma mem_cleanRvr {rows : List RawRow} {v : RvrReading} (h : v ∈ cleanRvr rows) :
    ∃ r ∈ rows, rvrContains r.payload.toList = true ∧
      (∃ tok, searchRvr r.payload.toList = some (tok, v.vis) ∧ v.runway = ⟨tok⟩) ∧
      v.vis ≤ 5000 ∧ v.ts = normalizeTs r.ts := by
  rw [cleanRvr, List.mem_filterMap] at h
  obtain ⟨r, hr, he⟩ := h
  refine ⟨r, hr, ?_⟩
  split at he
  case isTrue hc =>
    split at he
    next x hs =>
      split at he
      next hv => cases he; exact ⟨hc, ⟨x.1, hs, rfl⟩, hv.2, rfl⟩
      next hv => exact Option.noConfusion he
    next hs => exact Option.noConfusion he
  case isFalse hc => exact Option.noConfusion he

/-- Shrinking the cutoff (larger lookback) only adds general readings. -/
lemma windowGen_mono (gen : List GenReading) {c1 c2 : Int} (h : c2 ≤ c1) :
    windowGen gen c1 ⊆ windowGen gen c2 := by
  intro g hg
  rw [windowGen, List.mem_filter] at hg ⊢
  exact ⟨hg.1, decide_eq_true (le_trans h (of_decide_eq_true hg.2))⟩

/-- Shrinking the cutoff (larger lookback) only adds runway readings. -/
lemma windowRvr_mono (rvr : List RvrReading) {c1 c2 : Int} (h : c2 ≤ c1) :
    windowRvr rvr c1 ⊆ windowRvr rvr c2 := by
  intro r hr
  rw [windowRvr, List.mem_filter] at hr ⊢
  exact ⟨hr.1, decide_eq_true (le_trans h (of_decide_eq_true hr.2))⟩

/-- A row whose payload fails general extraction contributes nothing to
the cleaned general series. -/
lemma cleanGen_cons_none (r : RawRow) (rows : List RawRow)
    (h : searchGen r.payload.toList = none) :
    cleanGen (r :: rows) = cleanGen rows := by
  simp only [cleanGen, List.filterMap_cons, h]
  simp

/-- A single row with a successful in-range runway extraction cleans to
exactly one runway reading. -/
lemma cleanRvr_singleton (r : RawRow) (tok : List Char) (v : Nat)
    (hc : rvrContains r.payload.toList = true)
    (hs : searchRvr r.payload.toList = some (tok, v)) (hv : v ≤ 5000) :
    cleanRvr [r] = [⟨normalizeTs r.ts, ⟨tok⟩, v⟩] := by
  simp only [cleanRvr, List.filterMap_cons, List.filterMap_nil, hc, hs]
  simp [hv]

/-- The maximum instant bounds every member of the series. -/
lemma maxInstant_ub {gen : List GenReading} {m : Int}
    (h : maxInstant gen = some m) : ∀ g ∈ gen, g.ts.instant ≤ m := by
  cases gen with
  | nil => cases h
  | cons g0 gs =>
    simp only [maxInstant, Option.some.injEq] at h
    subst h
    intro g hg
    rcases List.mem_cons.mp hg with h | h
    · subst h; exact le_foldl_max _ _
    · exact mem_le_foldl_max _ _ (List.mem_map_of_mem _ h) _

/-! ## Claim theorems -/

/-- C2: every reading of either kind that survives the anomaly filter has
`0 ≤ vis ≤ 5000`, and every cleaned reading's value was successfully
extracted from some raw row (so out-of-range rows and failed extractions
reach neither cleaned series). -/
theorem anomaly_filter_bounds :
    ∀ rows : List RawRow,
      (∀ g ∈ cleanGen rows, (0 ≤ g.vis ∧ g.vis ≤ 5000) ∧
        ∃ r ∈ rows, searchGen r.payload.toList = some g.vis) ∧
      (∀ v ∈ cleanRvr rows, (0 ≤ v.vis ∧ v.vis ≤ 5000) ∧
        ∃ r ∈ rows, ∃ tok, searchRvr r.payload.toList = some (tok, v.vis)) := by
  intro rows
  constructor
  · intro g hg
    obtain ⟨r, hr, _, hs, hle, _⟩ := mem_cleanGen hg
    exact ⟨⟨Nat.zero_le _, hle⟩, r, hr, hs⟩
  · intro v hv
    obtain ⟨r, hr, _, ⟨tok, hs, _⟩, hle, _⟩ := mem_cleanRvr hv
    exact ⟨⟨Nat.zero_le _, hle⟩, r, hr, tok, hs⟩

/-- Witness for C2: the cleaned general reading of `rowsBasic`. -/
theorem anomaly_filter_bounds_witness :
    (0 ≤ (GenReading.mk ⟨330, some 330⟩ 350).vis ∧
      (GenReading.mk ⟨330, some 330⟩ 350).vis ≤ 5000) ∧
    ∃ r ∈ rowsBasic,
      searchGen r.payload.toList = some (GenReading.mk ⟨330, some 330⟩ 350).vis :=
  (anomaly_filter_bounds rowsBasic).1 ⟨⟨330, some 330⟩, 350⟩ (by decide)

/-- C3: the fog category is a total function of the current general
visibility with inclusive upper band boundaries: Dense iff `v ≤ 50`,
Moderate iff `50 < v ≤ 200`, Shallow iff `200 < v ≤ 500`, Clear iff
`v > 500`; in particular 50 is Dense, 51 and 200 Moderate, 201 and 500
Shallow, 501 Clear, and the reported category is exactly `fogType` of the
reported current visibility. -/
theorem fog_category_bands :
    (∀ v : Nat,
      (fogType v = .Dense ↔ v ≤ 50) ∧
      (fogType v = .Moderate ↔ 50 < v ∧ v ≤ 200) ∧
      (fogType v = .Shallow ↔ 200 < v ∧ v ≤ 500) ∧
      (fogType v = .Clear ↔ 500 < v)) ∧
    fogType 50 = .Dense ∧ fogType 51 = .Moderate ∧ fogType 200 = .Moderate ∧
    fogType 201 = .Shallow ∧ fogType 500 = .Shallow ∧ fogType 501 = .Clear ∧
    (∀ (gen : List GenReading) (rvr : List RvrReading) (latest : Int) (lb : Lookback),
      (computeSummary gen rvr latest lb).fog =
        fogType ((computeSummary gen rvr latest lb).currVis)) := by
  refine ⟨?_, by decide, by decide, by decide, by decide, by decide, by decide,
    fun gen rvr latest lb => rfl⟩
  intro v
  unfold fogType
  split_ifs with h1 h2 h3 <;>
    refine ⟨?_, ?_, ?_, ?_⟩ <;> constructor <;> intro h <;>
      first
      | rfl
      | omega
      | simp_all

/-- Witness for C3: the boundary value 50 classifies as Dense via the
band characterization. -/
theorem fog_category_bands_witness : fogType 50 = FogCat.Dense :=
  ((fog_category_bands.1 50).1).mpr (by decide)

/-- C5: for the same underlying cleaned series and latest timestamp, the
selected windows are nested monotonically by lookback: the 6-hour window
is contained in the 24-hour window, which is contained in the 7-day
window, for both series. -/
theorem windows_nested (gen : List GenReading) (rvr : List RvrReading) (latest : Int) :
    windowGen gen (latest - lookbackMinutes .h6) ⊆
      windowGen gen (latest - lookbackMinutes .h24) ∧
    windowGen gen (latest - lookbackMinutes .h24) ⊆
      windowGen gen (latest - lookbackMinutes .d7) ∧
    windowRvr rvr (latest - lookbackMinutes .h6) ⊆
      windowRvr rvr (latest - lookbackMinutes .h24) ∧
    windowRvr rvr (latest - lookbackMinutes .h24) ⊆
      windowRvr rvr (latest - lookbackMinutes .d7) := by
  refine ⟨windowGen_mono gen ?_, windowGen_mono gen ?_,
    windowRvr_mono rvr ?_, windowRvr_mono rvr ?_⟩ <;>
    simp [lookbackMinutes] <;> omega

/-- Witness for C5: a concrete 6-hour-window general reading is also in
the 24-hour window. -/
theorem windows_nested_witness :
    GenReading.mk ⟨390, some 330⟩ 350 ∈
      windowGen (cleanGen rowsTwoRvr) (60 - lookbackMinutes .h24) :=
  (windows_nested (cleanGen rowsTwoRvr) (cleanRvr rowsTwoRvr) 60).1 (by decide)

/-- C6: timestamp normalization attaches UTC to a naive timestamp and
re-expresses every timestamp in IST (UTC+5:30): the offset is always
+330 minutes afterwards, the denoted instant is unchanged, the
normalization is idempotent (IST to IST is a no-op, both for
`normalizeTs` and for the underlying `tz_convert`), and every reading of
both cleaned series — hence everything later filtered or compared —
carries the IST offset. -/
theorem timestamp_normalization :
    (∀ n : Int, normalizeTs ⟨n, none⟩ = ⟨n + istOffset, some istOffset⟩) ∧
    (∀ t : Timestamp, (normalizeTs t).offset = some istOffset) ∧
    (∀ t : Timestamp, (normalizeTs t).instant = t.instant) ∧
    (∀ t : Timestamp, normalizeTs (normalizeTs t) = normalizeTs t) ∧
    (∀ n : Int, tzConvertIST ⟨n, some istOffset⟩ = some ⟨n, some istOffset⟩) ∧
    (∀ rows : List RawRow, ∀ g ∈ cleanGen rows, g.ts.offset = some istOffset) ∧
    (∀ rows : List RawRow, ∀ v ∈ cleanRvr rows, v.ts.offset = some istOffset) := by
  refine ⟨fun n => rfl, ?_, ?_, ?_, ?_, ?_, ?_⟩
  · intro t; cases t with | mk n o => cases o <;> rfl
  · intro t; cases t with
    | mk n o => cases o <;> simp [normalizeTs, Timestamp.instant]
  · intro t; cases t with
    | mk n o => cases o <;> simp [normalizeTs]
  · intro n; simp [tzConvertIST]
  · intro rows g hg
    obtain ⟨r, _, _, _, _, hts⟩ := mem_cleanGen hg
    rw [hts]
    cases hr : r.ts with | mk n o => cases o <;> rfl
  · intro rows v hv
    obtain ⟨r, _, _, _, _, hts⟩ := mem_cleanRvr hv
    rw [hts]
    cases hr : r.ts with | mk n o => cases o <;> rfl

/-- Witness for C6: the naive instant 28421280 min = 2024-01-15T00:00:00
(UTC) becomes 05:30 IST, and a concrete cleaned reading carries the IST
offset. -/
theorem timestamp_normalization_witness :
    normalizeTs ⟨28421280, none⟩ = ⟨28421280 + istOffset, some istOffset⟩ ∧
    (GenReading.mk ⟨330, some 330⟩ 350).ts.offset = some istOffset :=
  ⟨timestamp_normalization.1 28421280,
   timestamp_normalization.2.2.2.2.2.1 rowsBasic ⟨⟨330, some 330⟩, 350⟩ (by decide)⟩

/-- C4 (amended): every reading in a computed window lies at or after the
cutoff `latest - L`; readings of the GENERAL window additionally lie at or
before `latest` (the general-series maximum).  The runway window only gets
the lower bound: no upper cutoff is applied to it. -/
theorem window_bounds :
    ∀ (rows : List RawRow) (lb : Lookback) (latest : Int),
      maxInstant (cleanGen rows) = some latest →
      (∀ g ∈ windowGen (cleanGen rows) (latest - lookbackMinutes lb),
          latest - lookbackMinutes lb ≤ g.ts.instant ∧ g.ts.instant ≤ latest) ∧
      (∀ r ∈ windowRvr (cleanRvr rows) (latest - lookbackMinutes lb),
          latest - lookbackMinutes lb ≤ r.ts.instant) := by
  intro rows lb latest hmax
  constructor
  · intro g hg
    rw [windowGen, List.mem_filter] at hg
    exact ⟨of_decide_eq_true hg.2, maxInstant_ub hmax g hg.1⟩
  · intro r hr
    rw [windowRvr, List.mem_filter] at hr
    exact of_decide_eq_true hr.2

/-- Witness for C4 at concrete data. -/
theorem window_bounds_witness :
    (0:Int) - lookbackMinutes .h24 ≤ (GenReading.mk ⟨330, some 330⟩ 350).ts.instant ∧
    (GenReading.mk ⟨330, some 330⟩ 350).ts.instant ≤ 0 :=
  (window_bounds rowsBasic .h24 0 (by decide)).1 ⟨⟨330, some 330⟩, 350⟩ (by decide)

/-- C4 counterexample: in `rowsLateRvr` the runway reading (instant 100)
is 100 minutes later than the only general reading (instant 0), so it
lies in the 24-hour window while violating the claimed upper bound
`r.timestamp ≤ latest_timestamp`. -/
theorem window_upper_bound_counterexample :
    maxInstant (cleanGen rowsLateRvr) = some 0 ∧
    ¬ (∀ r ∈ windowRvr (cleanRvr rowsLateRvr) (0 - lookbackMinutes .h24),
        r.ts.instant ≤ 0) := by
  exact ⟨by decide, by decide⟩

/-- C9: an empty cleaned general series makes the whole invocation fail
with the empty-series failure (the NaT `strftime` raises before any
window is computed): no summary is produced, and that failure is distinct
from the source-unavailable failure of an unreadable CSV. -/
theorem empty_series_failure :
    (∀ (rows : List RawRow) (lb : Lookback),
        cleanGen rows = [] → runMain (some rows) lb = .error .emptySeries) ∧
    (∀ lb : Lookback, runMain none lb = .error .sourceUnavailable) ∧
    MainError.emptySeries ≠ MainError.sourceUnavailable ∧
    (∀ (rows : List RawRow) (lb : Lookback) (s : WindowSummary),
        cleanGen rows = [] → runMain (some rows) lb ≠ .ok s) := by
  refine ⟨?_, fun lb => rfl, by decide, ?_⟩
  · intro rows lb h
    simp [runMain, h, maxInstant]
  · intro rows lb s h
    simp [runMain, h, maxInstant]

/-- Witness for C9: runway-only data leaves the general series empty. -/
theorem empty_series_failure_witness :
    runMain (some rowsRvrOnly) .h24 = .error .emptySeries :=
  empty_series_failure.1 rowsRvrOnly .h24 (by decide)

/-- C7: a payload containing the `GEN. VIS.` marker but not matching the
stricter digits pattern yields no value, contributes nothing to the
cleaned general series for any surrounding rows, and the invocation still
succeeds. -/
theorem malformed_gen_row_dropped :
    genContains ("GEN. VIS. :abc").toList = true ∧
    searchGen ("GEN. VIS. :abc").toList = none ∧
    (∀ (t : Timestamp) (rows : List RawRow),
        cleanGen (⟨t, "GEN. VIS. :abc"⟩ :: rows) = cleanGen rows) ∧
    runMain (some rowsWithAbc) .h24 =
      .ok (computeSummary (cleanGen rowsWithAbc) (cleanRvr rowsWithAbc) 0 .h24) ∧
    cleanGen rowsWithAbc = [⟨⟨330, some 330⟩, 350⟩] := by
  refine ⟨by decide, by decide, ?_, ?_, by decide⟩
  · intro t rows
    exact cleanGen_cons_none ⟨t, "GEN. VIS. :abc"⟩ rows
      ((by decide : searchGen ("GEN. VIS. :abc").toList = none))
  · have hm : maxInstant (cleanGen rowsWithAbc) = some 0 := by decide
    simp [runMain, hm]

/-- Witness for C7: prepending the malformed row to concrete rows leaves
the cleaned general series unchanged. -/
theorem malformed_gen_row_dropped_witness :
    cleanGen (⟨⟨0, none⟩, "GEN. VIS. :abc"⟩ :: rowsBasic) = cleanGen rowsBasic :=
  malformed_gen_row_dropped.2.2.1 ⟨0, none⟩ rowsBasic

/-- C8: a payload matching `RVR`, whitespace, an alphanumeric token,
whitespace, a colon and a digit run — concretely `RVR 28 :0075`, alone or
inside a longer line — extracts runway id `28` and value 75, and the
pipeline turns such a row into exactly that runway reading. -/
theorem rvr_extraction :
    searchRvr ("RVR 28 :0075").toList = some (("28").toList, 75) ∧
    rvrContains ("DATA RVR 28 :0075 MSG").toList = true ∧
    searchRvr ("DATA RVR 28 :0075 MSG").toList = some (("28").toList, 75) ∧
    (∀ t : Timestamp,
        cleanRvr [⟨t, "DATA RVR 28 :0075 MSG"⟩] = [⟨normalizeTs t, "28", 75⟩]) := by
  refine ⟨by decide, by decide, by decide, ?_⟩
  intro t
  exact cleanRvr_singleton ⟨t, "DATA RVR 28 :0075 MSG"⟩ ("28").toList 75
    ((by decide : rvrContains ("DATA RVR 28 :0075 MSG").toList = true))
    ((by decide : searchRvr ("DATA RVR 28 :0075 MSG").toList = some (("28").toList, 75)))
    (by decide)

/-- Witness for C8: the concrete runway row at naive minute 7 cleans to
exactly the expected reading. -/
theorem rvr_extraction_witness :
    cleanRvr [⟨⟨7, none⟩, "DATA RVR 28 :0075 MSG"⟩] =
      [⟨normalizeTs ⟨7, none⟩, "28", 75⟩] :=
  rvr_extraction.2.2.2 ⟨7, none⟩

/-- C1 (amended): the reported critical runway RVR is the minimum over
ALL windowed runway readings, not only those at the latest runway
timestamp: it is 0 on an empty window, and on a non-empty window it is a
value attained by some windowed reading and bounds every windowed
reading's value from below. -/
theorem min_rvr_window_min :
    ∀ (rvr : List RvrReading) (cutoff : Int),
      (windowRvr rvr cutoff = [] → minRvr (windowRvr rvr cutoff) = 0) ∧
      (windowRvr rvr cutoff ≠ [] →
        minRvr (windowRvr rvr cutoff) ∈ (windowRvr rvr cutoff).map RvrReading.vis ∧
        ∀ r ∈ windowRvr rvr cutoff, minRvr (windowRvr rvr cutoff) ≤ r.vis) := by
  intro rvr cutoff
  constructor
  · intro h; rw [h]; rfl
  · intro h
    cases hw : windowRvr rvr cutoff with
    | nil => exact absurd hw h
    | cons r rs =>
      constructor
      · show (rs.map RvrReading.vis).foldl min r.vis ∈ r.vis :: rs.map RvrReading.vis
        rcases foldl_min_mem (rs.map RvrReading.vis) r.vis with h1 | h1
        · rw [h1]; exact List.mem_cons_self _ _
        · exact List.mem_cons_of_mem _ h1
      · intro x hx
        rcases List.mem_cons.mp hx with h1 | h1
        · subst h1; exact foldl_min_le_start _ _
        · exact foldl_min_le_mem x.vis _ (List.mem_map_of_mem _ h1) _

/-- Witness for C1 at the concrete two-runway-reading window. -/
theorem min_rvr_window_min_witness :
    minRvr (windowRvr (cleanRvr rowsTwoRvr) (60 - lookbackMinutes .h24)) ∈
      (windowRvr (cleanRvr rowsTwoRvr) (60 - lookbackMinutes .h24)).map RvrReading.vis ∧
    ∀ r ∈ windowRvr (cleanRvr rowsTwoRvr) (60 - lookbackMinutes .h24),
      minRvr (windowRvr (cleanRvr rowsTwoRvr) (60 - lookbackMinutes .h24)) ≤ r.vis :=
  (min_rvr_window_min (cleanRvr rowsTwoRvr) (60 - lookbackMinutes .h24)).2 (by decide)

/-- C1 counterexample: on `rowsTwoRvr` (runway values 100 at instant 0
and 200 at instant 60, latest general instant 60) the engine reports 100,
the minimum over the whole window, while the minimum among readings at
the latest runway timestamp alone is 200. -/
theorem min_rvr_latest_only_counterexample :
    maxInstant (cleanGen rowsTwoRvr) = some 60 ∧
    runMain (some rowsTwoRvr) .h24 =
      .ok (computeSummary (cleanGen rowsTwoRvr) (cleanRvr rowsTwoRvr) 60 .h24) ∧
    (computeSummary (cleanGen rowsTwoRvr) (cleanRvr rowsTwoRvr) 60 .h24).minRvr = 100 ∧
    minRvrLatestOnly (windowRvr (cleanRvr rowsTwoRvr) (60 - lookbackMinutes .h24)) = 200 ∧
    (100 : Nat) ≠ 200 := by
  refine ⟨by decide, ?_, by decide, by decide, by decide⟩
  have hm : maxInstant (cleanGen rowsTwoRvr) = some 60 := by decide
  simp [runMain, hm]

/-- C10: the reported period mean truncates toward zero; on the
non-negative cleaned values this is the floor of the exact rational mean,
which never exceeds the true mean (and is strictly below it whenever the
true mean is not an integer). -/
theorem avg_vis_truncation :
    (∀ (w : List GenReading) (g : GenReading),
        w.getLast? = some g → currVis w = g.vis) ∧
    ∀ w : List GenReading, w ≠ [] →
      0 ≤ meanVis w ∧
      avgVis w = ⌊meanVis w⌋ ∧
      (avgVis w : ℚ) ≤ meanVis w ∧
      meanVis w < (avgVis w : ℚ) + 1 ∧
      ((¬ ∃ z : ℤ, (z : ℚ) = meanVis w) → (avgVis w : ℚ) < meanVis w) := by
  refine ⟨?_, ?_⟩
  · intro w g h; rw [currVis, h]
  intro w hw
  have hmean : 0 ≤ meanVis w := by
    rw [meanVis]
    apply div_nonneg
    · apply List.sum_nonneg
      intro x hx
      obtain ⟨g, _, rfl⟩ := List.mem_map.mp hx
      exact Nat.cast_nonneg _
    · exact Nat.cast_nonneg _
  have havg : avgVis w = ⌊meanVis w⌋ := by
    rw [avgVis, if_neg (by simp [hw]), pyInt, if_pos hmean]
  have hle : (avgVis w : ℚ) ≤ meanVis w := by
    rw [havg]; exact_mod_cast Int.floor_le (meanVis w)
  refine ⟨hmean, havg, hle, ?_, ?_⟩
  · rw [havg]
    exact_mod_cast Int.lt_floor_add_one (meanVis w)
  · intro hnz
    rcases lt_or_eq_of_le hle with h | h
    · exact h
    · exact absurd ⟨avgVis w, h⟩ hnz

/-- Witness for C10: two readings with values 1 and 2 give current value
2, exact mean 3/2 and reported mean 1. -/
theorem avg_vis_truncation_witness :
    currVis genPair = 2 ∧
    (0 ≤ meanVis genPair ∧
      avgVis genPair = ⌊meanVis genPair⌋ ∧
      (avgVis genPair : ℚ) ≤ meanVis genPair ∧
      meanVis genPair < (avgVis genPair : ℚ) + 1 ∧
      ((¬ ∃ z : ℤ, (z : ℚ) = meanVis genPair) → (avgVis genPair : ℚ) < meanVis genPair)) :=
  ⟨avg_vis_truncation.1 genPair ⟨⟨331, some 330⟩, 2⟩ (by decide),
   avg_vis_truncation.2 genPair (by decide)⟩

end FogTracker
